import Mathlib

/-!
Verification development for the FIT-profile field decoder
(choochoo, src/choochoo/fit/profile/fields.py).

The Python module is shallowly embedded below.  Machine integers are
modelled as Nat with explicit byte/bit arithmetic; decoded values are
rationals or strings; fallible operations (Python exceptions) return
Except / Option; generators are modelled by the list of entries a caller
obtains by exhausting them (an exception while draining the generator
discards the partial output, as list() does in Python).  Log warnings
emitted during decoding are modelled as a list of strings paired with
the output entries.  The iteration order of a Python set of strings is
implementation defined, so DynamicField decoding is parameterised by an
order function; theorems quantify over the admissible orders
(permutations of the set elements).
-/

set_option autoImplicit false

namespace ChooChoo

/-- A raw byte buffer: each entry is one byte value. -/
abbrev Bytes := List Nat

/-- A decoded primitive value produced by the type registry: a number or a
string (both occur in FIT profiles). -/
inductive Value where
  | num (q : ℚ)
  | str (s : String)
  deriving DecidableEq, Repr

abbrev Values := List Value

/-- One entry yielded by a field parse generator:
(name, (values-or-None, units)). -/
abbrev Output := String × (Option Values × Option String)

/-- The references map supplied to decode: field name to the
(values, units) pair that field previously yielded. -/
abbrev Refs := List (String × (Option Values × Option String))

/-- The external accumulator collaborator: keyed by field name. -/
abbrev AccFn := String → Values → Values

/-- Result of draining a parse generator: an exception, or the warnings
logged together with the output entries. -/
abbrev Parsed := Except String (List String × List Output)

instance {ε α : Type} [DecidableEq ε] [DecidableEq α] : DecidableEq (Except ε α) :=
  fun x y =>
    match x, y with
    | .ok a, .ok b =>
        if h : a = b then isTrue (by rw [h]) else isFalse (fun hc => by cases hc; exact h rfl)
    | .error e, .error f =>
        if h : e = f then isTrue (by rw [h]) else isFalse (fun hc => by cases hc; exact h rfl)
    | .ok _, .error _ => isFalse (fun hc => by cases hc)
    | .error _, .ok _ => isFalse (fun hc => by cases hc)

instance : DecidableEq (List String × List Output) :=
  fun a b => inferInstanceAs (Decidable (a = b))

instance : DecidableEq Parsed :=
  fun a b => inferInstanceAs (Decidable (a = b))

/-- The type-registry collaborator: a resolved decode type with its byte
size and its parse function (data, count, endian). -/
structure FitType where
  size : Nat
  parse : Bytes → Nat → Nat → Option Values

/-! ## Python string helpers

str.split(','), str.strip(), int(str) and float(str) are modelled over
character lists so that everything reduces in the kernel. -/

/-- Python str.split(',') on a character list. -/
def splitComma : List Char → List (List Char)
  | [] => [[]]
  | c :: rest =>
      if c = ',' then [] :: splitComma rest
      else
        match splitComma rest with
        | [] => [[c]]
        | g :: gs => (c :: g) :: gs

/-- Python str.strip(): drop leading and trailing whitespace. -/
def trimList (cs : List Char) : List Char :=
  ((cs.dropWhile Char.isWhitespace).reverse.dropWhile Char.isWhitespace).reverse

def allDigits (cs : List Char) : Bool := cs.all Char.isDigit

def natOfDigits (cs : List Char) : Nat :=
  cs.foldl (fun a c => a * 10 + (c.toNat - 48)) 0

/-- Python int(str): optional surrounding whitespace, optional sign, a
nonempty digit string; anything else raises ValueError (modelled none).
(Underscore digit separators are not modelled; profile cells never use
them.) -/
def pyInt? (s : String) : Option Int :=
  match trimList s.data with
  | '+' :: cs => if cs ≠ [] ∧ allDigits cs then some ((natOfDigits cs : Int)) else none
  | '-' :: cs => if cs ≠ [] ∧ allDigits cs then some (-(natOfDigits cs : Int)) else none
  | cs => if cs ≠ [] ∧ allDigits cs then some ((natOfDigits cs : Int)) else none

/-- Python float(str) restricted to the decimal forms profile cells use:
optional sign, digits with an optional fractional part (exponents,
inf and nan are not modelled). -/
def pyFloat? (s : String) : Option ℚ :=
  let signed : ℚ × List Char :=
    match trimList s.data with
    | '+' :: cs => (1, cs)
    | '-' :: cs => (-1, cs)
    | cs => (1, cs)
  let ip := signed.2.takeWhile (fun c => c ≠ '.')
  let rest := signed.2.dropWhile (fun c => c ≠ '.')
  match rest with
  | [] => if ip ≠ [] ∧ allDigits ip then some (signed.1 * (natOfDigits ip : ℚ)) else none
  | _ :: fp =>
      if (ip ≠ [] ∨ fp ≠ []) ∧ allDigits ip ∧ allDigits fp then
        some (signed.1 * ((natOfDigits ip : ℚ) + (natOfDigits fp : ℚ) / (10 ^ fp.length)))
      else none

/-- Truthiness of a CSV cell: a cell is truthy when it holds a nonempty
string (Python: `if field:`). -/
def cellTruthy : Option String → Bool
  | none => false
  | some s => s ≠ ""

/-- Truthiness of an optional integer (Python: `if accumulate:` where the
value came through single_int). -/
def truthyInt : Option Int → Bool
  | none => false
  | some n => n ≠ 0

/-! ## ScaledField -/

/-- The data of ScaledField after __init__ resolved the defaults:
_scale is 1 when the scale argument was None, _offset is 0 when the
offset argument was None. -/
structure ScaledField where
  name : String
  units : Option String
  scale : ℚ
  offset : ℚ
  isAccumulate : Bool
  deriving DecidableEq, Repr

/-- ScaledField.__init__: resolve the scale/offset defaults. -/
def mkScaledField (name : String) (units : Option String)
    (scale offset : Option ℚ) (isAccumulate : Bool) : ScaledField :=
  { name := name, units := units, scale := scale.getD 1, offset := offset.getD 0,
    isAccumulate := isAccumulate }

/-- self._is_scaled = self._scale != 1 or self._offset != 0. -/
def ScaledField.isScaled (sf : ScaledField) : Bool :=
  sf.scale != 1 || sf.offset != 0

/-- One scaling step, value / scale - offset.  Applying it to a string
raises TypeError in Python, and scale 0 raises ZeroDivisionError; both
are modelled as none. -/
def scaleValue (scale offset : ℚ) : Value → Option Value
  | .num q => if scale = 0 then none else some (.num (q / scale - offset))
  | .str _ => none

/-- ScaledField._parse_and_scale.  Note that in the source the yield sits
outside the `if values is not None` guard, so an entry is produced even
when the type registry returns no values. -/
def parseAndScale (sf : ScaledField) (t : FitType) (data : Bytes) (count endian : Nat)
    (acc : AccFn) : Parsed :=
  match t.parse data count endian with
  | none => .ok ([], [(sf.name, (none, sf.units))])
  | some vs =>
      match (if sf.isScaled then vs.mapM (scaleValue sf.scale sf.offset) else some vs) with
      | none => .error "TypeError"
      | some vs1 =>
          let vs2 := if sf.isAccumulate then acc sf.name vs1 else vs1
          .ok ([], [(sf.name, (some vs2, sf.units))])

/-! ## Zip

Zip._zip feeds each comma-joined attribute cell through __split and zips
the resulting generators.  Generators at positions 0 and 1 are not
extended; generators at positions 2 and onward are padded with an
infinite tail of None, so the zip length is the length of the first list
when there is only one, and the minimum of the first two lengths
otherwise. -/

/-- Zip.__split: a truthy cell yields its comma-separated, stripped
parts; a falsy cell yields a single None. -/
def pySplit (field : Option String) : List (Option String) :=
  match field with
  | none => [none]
  | some s =>
      if s = "" then [none]
      else (splitComma s.data).map (fun cs => some (String.mk (trimList cs)))

/-- Zip._zip as the list of per-index tuples (each tuple itself a list,
one entry per input cell). -/
def zipFields (fields : List (Option String)) : List (List (Option String)) :=
  match fields.map pySplit with
  | [] => []
  | l0 :: rest =>
      let n := match rest with
        | [] => l0.length
        | l1 :: _ => min l0.length l1.length
      (List.range n).map (fun i => (l0 :: rest).map (fun l => l.getD i none))

/-! ## Field variants -/

/-- The four field variants of the module.  DelegateField carries only
its ScaledField data; CompositeField stores its (bit-width,
DelegateField) component pairs; DynamicField additionally stores the set
of tracked reference names (as the list of elements of the Python set)
and the resolution table (association list, later inserts shadow earlier
ones, as in a dict). -/
inductive Field where
  | row (sf : ScaledField) (number : Option Int) (type : FitType)
  | dynamic (sf : ScaledField) (number : Option Int) (type : FitType)
      (refs : List (Option String))
      (table : List ((Option String × Option String) × String))
  | delegate (sf : ScaledField)
  | composite (name : String) (number : Option Int)
      (components : List (Nat × ScaledField))

abbrev Table := List ((Option String × Option String) × String)

/-- The message-context collaborator: profile_to_field by name.  A
missing name raises (modelled none, turned into an error at use). -/
abbrev Message := List (String × Field)

def profileToField (msg : Message) (name : String) : Option Field :=
  msg.lookup name

def Field.isRow : Field → Bool
  | .row .. => true
  | _ => false

def Field.isDynamic : Field → Bool
  | .dynamic .. => true
  | _ => false

def Field.isComposite : Field → Bool
  | .composite .. => true
  | _ => false

/-- The resolved decode type of a field, for fields that have one
(isinstance(field, RowField) is true exactly for RowField and its
subclass DynamicField, and both expose .type). -/
def Field.typeOf : Field → Option FitType
  | .row _ _ t => some t
  | .dynamic _ _ t _ _ => some t
  | _ => none

def Field.dynRefs : Field → List (Option String)
  | .dynamic _ _ _ refs _ => refs
  | _ => []

def Field.dynTable : Field → Table
  | .dynamic _ _ _ _ table => table
  | _ => []

/-- DelegateField.size: the resolved delegate must expose .type
(AttributeError otherwise, modelled none). -/
def delegateSize (msg : Message) (sf : ScaledField) : Option Nat :=
  (profileToField msg sf.name).bind (fun d => d.typeOf.map (fun t => t.size))

/-! ## Byte conversions -/

/-- int.from_bytes, little-endian over the byte list. -/
def fromBytesLE : Bytes → Nat
  | [] => 0
  | b :: rest => b + 256 * fromBytesLE rest

/-- int.from_bytes(data, byteorder): the flag big selects the big byte order. -/
def fromBytes (big : Bool) (data : Bytes) : Nat :=
  fromBytesLE (if big then data.reverse else data)

def toBytesLE : Nat → Nat → Bytes
  | 0, _ => []
  | n + 1, x => x % 256 :: toBytesLE n (x / 256)

/-- int.to_bytes(len, byteorder): raises OverflowError (none) when the
value does not fit. -/
def toBytes (big : Bool) (len : Nat) (x : Nat) : Option Bytes :=
  if x < 256 ^ len then
    some (if big then (toBytesLE len x).reverse else toBytesLE len x)
  else none

/-- Indexing the two-element byteorder list by endian: IndexError (none)
unless endian is 0 or 1; true means big. -/
def byteorderOf : Nat → Option Bool
  | 0 => some false
  | 1 => some true
  | _ => none

/-! ## Decoding

fieldParse is the union of the .parse methods, by fuel-indexed recursion
(the fuel bounds the delegation depth; Python would overflow the stack
on a cyclic schema, modelled as the RecursionError branch). -/

/-- The signature shared by all .parse methods:
field, data, count, endian, references, accumulate, message. -/
abbrev ParseFn := Field → Bytes → Nat → Nat → Refs → AccFn → Message → Parsed

/-- The iteration order a run of the Python interpreter gives the
elements of the references set of a DynamicField. -/
abbrev OrdFn := List (Option String) → List (Option String)

/-- Python tuple equality between a decoded lookup value and a stored
reference-value cell. -/
def valueEqCell (v : Value) (k : Option String) : Bool :=
  match v, k with
  | .str s, some t => s = t
  | _, _ => false

/-- Dict lookup in the dynamic resolution table: the key is the pair
(reference name, decoded value); later inserts shadow earlier ones. -/
def tableGet (table : Table) (nm : String) (v : Value) : Option String :=
  ((table.filter (fun e => e.1.1 == some nm && valueEqCell v e.1.2)).getLast?).map
    (fun e => e.2)

/-- The warning DynamicField.parse logs before falling back. -/
def dynWarn (name : String) : String :=
  "Could not resolve dynamic field " ++ name

/-- Prepend the fallback warning to a parse result (the warning is lost
when the generator then raises, as the log models only what a successful
drain observes). -/
def withWarn (name : String) : Parsed → Parsed
  | .ok (log, out) => .ok (dynWarn name :: log, out)
  | .error e => .error e

/-- The loop of DynamicField.parse over the tracked reference names, in
the order the set iteration produced them. -/
def dynLoop (recur : ParseFn) (sf : ScaledField) (t : FitType) (table : Table) :
    List (Option String) → Bytes → Nat → Nat → Refs → AccFn → Message → Parsed
  | [], data, count, endian, _, acc, _ =>
      withWarn sf.name (parseAndScale sf t data count endian acc)
  | name :: rest, data, count, endian, references, acc, msg =>
      match name with
      | none => dynLoop recur sf t table rest data count endian references acc msg
      | some nm =>
          match references.lookup nm with
          | none => dynLoop recur sf t table rest data count endian references acc msg
          | some (vals, _) =>
              match vals with
              | none => .error "TypeError"
              | some [] => .error "IndexError"
              | some (v :: _) =>
                  match tableGet table nm v with
                  | none => dynLoop recur sf t table rest data count endian references acc msg
                  | some overrideName =>
                      match profileToField msg overrideName with
                      | none => .error "KeyError"
                      | some f => recur f data count endian references acc msg

/-- The loop of CompositeField.parse over the (bit-width, DelegateField)
pairs.  The mask is transcribed as in the source:
bits & ((1 << bits) - 1), i.e. the shift amount is the running integer
itself, not the component bit width. -/
def compLoop (recur : ParseFn) :
    List (Nat × ScaledField) → Nat → Bool → Nat → Refs → AccFn → Message → Parsed
  | [], _, _, _, _, _, _ => .ok ([], [])
  | (nbits, sf) :: rest, bits, big, endian, references, acc, msg =>
      match delegateSize msg sf with
      | none => .error "AttributeError"
      | some sz =>
          let nbytes := max ((nbits + 7) / 8) sz
          match toBytes big nbytes (bits &&& (2 ^ bits - 1)) with
          | none => .error "OverflowError"
          | some data1 =>
              match recur (.delegate sf) data1 1 endian references acc msg with
              | .error e => .error e
              | .ok (log1, out1) =>
                  match compLoop recur rest (bits >>> nbits) big endian references acc msg with
                  | .error e => .error e
                  | .ok (log2, out2) => .ok (log1 ++ log2, out1 ++ out2)

/-- Field.parse, all variants.
* RowField/TypedField: _parse_and_scale with the resolved type.
* DynamicField: scan the tracked reference names (in set-iteration
  order), delegate to the resolved override, or warn and fall back to
  the RowField path.
* DelegateField: resolve the name in the message; a RowField instance
  (RowField or DynamicField) supplies its type to _parse_and_scale;
  otherwise a scaled delegate raises, an unscaled one fully delegates.
* CompositeField: split the buffer per the component bit widths. -/
def fieldParse (ord : OrdFn) : Nat → ParseFn
  | 0, _, _, _, _, _, _, _ => .error "RecursionError"
  | n + 1, f, data, count, endian, references, acc, msg =>
      match f with
      | .row sf _ t => parseAndScale sf t data count endian acc
      | .dynamic sf _ t refs table =>
          dynLoop (fieldParse ord n) sf t table (ord refs) data count endian references acc msg
      | .delegate sf =>
          match profileToField msg sf.name with
          | none => .error "KeyError"
          | some d =>
              match d.typeOf with
              | some t => parseAndScale sf t data count endian acc
              | none =>
                  if sf.isScaled then .error "Scaled component is not a simple field"
                  else fieldParse ord n d data count endian references acc msg
      | .composite _ _ comps =>
          match byteorderOf endian with
          | none => .error "IndexError"
          | some big =>
              compLoop (fieldParse ord n) comps (fromBytes big data) big endian references acc msg

/-! ## Row and field construction -/

/-- One profile table row.  Cells are raw strings; an absent cell is
none. -/
structure Row where
  msg_name : Option String
  field_no : Option String
  field_name : Option String
  field_type : Option String
  arrayFlag : Option String
  components : Option String
  scale : Option String
  offset : Option String
  units : Option String
  bits : Option String
  accumulate : Option String
  ref_name : Option String
  ref_value : Option String
  comment : Option String
  products : Option String
  exampleVal : Option String
  deriving DecidableEq, Repr

/-- Row.single_int with its warning channel: None stays None, a
parseable value becomes the integer, a ValueError is logged and gives
None. -/
def single_intLog (value : Option String) : Option Int × List String :=
  match value with
  | none => (none, [])
  | some s =>
      match pyInt? s with
      | some n => (some n, [])
      | none => (none, ["Cannot parse " ++ s ++ " as a single integer"])

/-- Row.single_int, value only. -/
def single_int (value : Option String) : Option Int :=
  (single_intLog value).1

/-- The type-registry collaborator: profile_to_type by type tag (a
missing tag raises, modelled none). -/
structure Types where
  profile_to_type : Option String → Option FitType

/-- RowField.__init__: resolve the type, parse the numeric cells through
single_int. -/
def rowFieldOfRow (row : Row) (types : Types) : Option Field :=
  (types.profile_to_type row.field_type).map (fun t =>
    Field.row
      (mkScaledField (row.field_name.getD "") row.units
        ((single_int row.scale).map (fun n => (n : ℚ)))
        ((single_int row.offset).map (fun n => (n : ℚ)))
        (truthyInt (single_int row.accumulate)))
      (single_int row.field_no) t)

/-- The (name, value) pairs of one override row:
self._zip(row.ref_name, row.ref_value). -/
def rowPairs (r : Row) : List (Option String × Option String) :=
  (zipFields [r.ref_name, r.ref_value]).map (fun l => (l.getD 0 none, l.getD 1 none))

/-- The lookahead loop of DynamicField.__init__: consume override rows
(truthy row with a truthy field name and no field number), break at the
first other row.  Returns the insertion sequence of reference names and
the insertion sequence of resolution-table entries. -/
def scanDyn : List (Option Row) → List (Option String) × Table
  | [] => ([], [])
  | none :: _ => ([], [])
  | some r :: rest =>
      if cellTruthy r.field_name && r.field_no.isNone then
        let pairs := rowPairs r
        let tail := scanDyn rest
        (pairs.map (fun p => p.1) ++ tail.1,
         pairs.map (fun p => ((p.1, p.2), r.field_name.getD "")) ++ tail.2)
      else ([], [])

/-- DynamicField.__init__: the RowField part plus the lookahead scan.
The Python set of reference names is represented by the deduplicated
element list (iteration order stays abstract, see OrdFn). -/
def dynamicOfRow (row : Row) (rows : List (Option Row)) (types : Types) : Option Field :=
  (types.profile_to_type row.field_type).map (fun t =>
    Field.dynamic
      (mkScaledField (row.field_name.getD "") row.units
        ((single_int row.scale).map (fun n => (n : ℚ)))
        ((single_int row.offset).map (fun n => (n : ℚ)))
        (truthyInt (single_int row.accumulate)))
      (single_int row.field_no) t
      (scanDyn rows).1.dedup (scanDyn rows).2)

/-- One component of CompositeField.__init__ from one zip tuple:
int(bits) and float(scale)/float(offset) may raise (none).  A negative
bit width is rejected here (Python would only fail later, at parse
time, when shifting by it). -/
def componentOfTuple (l : List (Option String)) : Option (Nat × ScaledField) :=
  match l with
  | [name, bits, units, scale, offset, accumulate] => do
      let bstr ← bits
      let b ← pyInt? bstr
      let n ← b.toNat'
      let s ← match scale with
        | none => pure none
        | some ss => (pyFloat? ss).map some
      let o ← match offset with
        | none => pure none
        | some os => (pyFloat? os).map some
      pure (n, mkScaledField (name.getD "") units s o (cellTruthy accumulate))
  | _ => none

/-- CompositeField.__init__. -/
def compositeOfRow (row : Row) : Option Field :=
  ((zipFields [row.components, row.bits, row.units, row.scale, row.offset,
      row.accumulate]).mapM componentOfTuple).map
    (fun comps => Field.composite (row.field_name.getD "") (single_int row.field_no) comps)

/-- rows.peek(): the next row without consuming it (none at the end of
the sequence or on a blank entry). -/
def peekRows : List (Option Row) → Option Row
  | [] => none
  | o :: _ => o

/-- The field factory MessageField. -/
def MessageField (row : Row) (rows : List (Option Row)) (types : Types) : Option Field :=
  if cellTruthy row.components then compositeOfRow row
  else
    match peekRows rows with
    | some r =>
        if cellTruthy r.field_name && r.field_no.isNone then dynamicOfRow row rows types
        else rowFieldOfRow row types
    | none => rowFieldOfRow row types

/-! ## Specification-side characterisations -/

/-- A lookahead entry that contributes to a dynamic resolution table: a
non-blank row with a field name and no field number. -/
def overrideRow : Option Row → Bool
  | some r => cellTruthy r.field_name && r.field_no.isNone
  | none => false

/-- The resolution table described by the spec: the entries contributed
by a given list of rows, with no break logic. -/
def tableOfRows (l : List (Option Row)) : Table :=
  l.flatMap (fun o =>
    match o with
    | some r => (rowPairs r).map (fun p => ((p.1, p.2), r.field_name.getD ""))
    | none => [])

/-- The reference names contributed by a given list of rows. -/
def refsOfRows (l : List (Option Row)) : List (Option String) :=
  l.flatMap (fun o =>
    match o with
    | some r => (rowPairs r).map (fun p => p.1)
    | none => [])

/-- The way one tracked reference name can fail to resolve without
raising: the case split of the body of DynamicField.parse. -/
def refUnresolved (table : Table) (references : Refs) : Option String → Prop
  | none => True
  | some s =>
      match references.lookup s with
      | none => True
      | some (none, _) => False
      | some (some [], _) => False
      | some (some (v :: _), _) => tableGet table s v = none

/-! ## Concrete collaborators for the examples -/

/-- An accumulator that returns the values unchanged. -/
def accId : AccFn := fun _ vs => vs

/-- A set-iteration order equal to the stored element order. -/
def ordId : OrdFn := id

/-- The reversed set-iteration order. -/
def ordRev : OrdFn := fun l => l.reverse

/-- A one-byte unsigned type: count bytes, one numeric value each. -/
def u8Type : FitType :=
  { size := 1, parse := fun data count _ => some ((data.take count).map (fun b => Value.num (b : ℚ))) }

/-- A type that always decodes to one fixed value. -/
def constType (q : ℚ) : FitType :=
  { size := 1, parse := fun _ _ _ => some [Value.num q] }

/-- A type whose parse always reports absent values. -/
def noneType : FitType :=
  { size := 1, parse := fun _ _ _ => none }

/-- An unscaled, non-accumulating ScaledField with no units. -/
def plainSF (name : String) : ScaledField := mkScaledField name none none none false

/-- A message context binding names a and b to plain one-byte row
fields. -/
def msgAB : Message :=
  [("a", Field.row (plainSF "a") none u8Type), ("b", Field.row (plainSF "b") none u8Type)]

/-- The resolution table of the worked dynamic-field example. -/
def tableXY : Table := [((some "A", some "1"), "X"), ((some "B", some "1"), "Y")]

/-- The dynamic field of the worked example: tracked names A then B. -/
def dynXY : Field :=
  Field.dynamic (plainSF "f") none u8Type [some "A", some "B"] tableXY

/-- Message context for the dynamic example: the override fields X and Y
decode to the distinguishable constants 100 and 200. -/
def msgXY : Message :=
  [("X", Field.row (plainSF "X") none (constType 100)),
   ("Y", Field.row (plainSF "Y") none (constType 200))]

/-- References in which both tracked names carry a resolvable value. -/
def refsAB : Refs :=
  [("A", (some [Value.str "1"], none)), ("B", (some [Value.str "1"], none))]

/-- References in which only A carries a value (the spec example). -/
def refsOnlyA : Refs := [("A", (some [Value.str "1"], none))]

/-- A scaled DelegateField (scale 2). -/
def sfDel2 : ScaledField := mkScaledField "d" none (some 2) none false

/-- A DynamicField with no overrides, used as a delegation target. -/
def dynD : Field := Field.dynamic (plainSF "d") none u8Type [] []

/-- A message context resolving d to a DynamicField. -/
def msgDynD : Message := [("d", dynD)]

/-- A message context resolving x to a plain RowField. -/
def msgRowX : Message := [("x", Field.row (plainSF "x") none u8Type)]

/-- Build a Row from the cells the claims exercise (comment, products
and example cells stay empty). -/
def mkRow (no name ty comp sc off un bi acc rn rv : Option String) : Row :=
  ⟨some "m", no, name, ty, none, comp, sc, off, un, bi, acc, rn, rv, none, none, none⟩

/-- A simple base row followed by override rows. -/
def rowC8 : Row := mkRow (some "1") (some "speed") (some "u8") none none none none none none none none

/-- First override row: two references A, B with values 1, 1. -/
def ov1C8 : Row :=
  mkRow none (some "X") (some "u8") none none none none none none (some "A,B") (some "1,1")

/-- Second override row: reference A with value 2. -/
def ov2C8 : Row :=
  mkRow none (some "Y") (some "u8") none none none none none none (some "A") (some "2")

/-- A row with a field number: terminates the lookahead. -/
def stopC8 : Row := mkRow (some "7") (some "Z") (some "u8") none none none none none none none none

/-- The lookahead rows for the factory example. -/
def rowsC8 : List (Option Row) := [some ov1C8, some ov2C8, some stopC8]

/-- A registry resolving every type tag to the one-byte type. -/
def typesU8 : Types := ⟨fun _ => some u8Type⟩

/-- A row whose numeric cells are all absent or malformed. -/
def rowBad : Row :=
  mkRow (some "1.5") (some "speed") (some "u8") none (some "x") none none none none none none

/-! ## Unfolding lemmas for fieldParse -/

theorem fieldParse_row (ord : OrdFn) (n : Nat) (sf : ScaledField) (num : Option Int)
    (t : FitType) (data : Bytes) (count endian : Nat) (references : Refs) (acc : AccFn)
    (msg : Message) :
    fieldParse ord (n + 1) (Field.row sf num t) data count endian references acc msg
      = parseAndScale sf t data count endian acc := rfl

theorem fieldParse_dynamic (ord : OrdFn) (n : Nat) (sf : ScaledField) (num : Option Int)
    (t : FitType) (refs : List (Option String)) (table : Table) (data : Bytes)
    (count endian : Nat) (references : Refs) (acc : AccFn) (msg : Message) :
    fieldParse ord (n + 1) (Field.dynamic sf num t refs table) data count endian references acc msg
      = dynLoop (fieldParse ord n) sf t table (ord refs) data count endian references acc msg := rfl

theorem fieldParse_delegate (ord : OrdFn) (n : Nat) (sf : ScaledField) (data : Bytes)
    (count endian : Nat) (references : Refs) (acc : AccFn) (msg : Message) :
    fieldParse ord (n + 1) (Field.delegate sf) data count endian references acc msg
      = match profileToField msg sf.name with
        | none => .error "KeyError"
        | some d =>
            match d.typeOf with
            | some t => parseAndScale sf t data count endian acc
            | none =>
                if sf.isScaled then .error "Scaled component is not a simple field"
                else fieldParse ord n d data count endian references acc msg := rfl

theorem fieldParse_composite (ord : OrdFn) (n : Nat) (nm : String) (num : Option Int)
    (comps : List (Nat × ScaledField)) (data : Bytes) (count endian : Nat)
    (references : Refs) (acc : AccFn) (msg : Message) :
    fieldParse ord (n + 1) (Field.composite nm num comps) data count endian references acc msg
      = match byteorderOf endian with
        | none => .error "IndexError"
        | some big =>
            compLoop (fieldParse ord n) comps (fromBytes big data) big endian references acc msg :=
  rfl

/-! ## Helper lemmas -/

theorem isScaled_false_of (sf : ScaledField) (hs : sf.scale = 1) (ho : sf.offset = 0) :
    sf.isScaled = false := by
  simp [ScaledField.isScaled, hs, ho]

theorem mapM_scaleValue_num (s o : ℚ) (hs : s ≠ 0) (qs : List ℚ) :
    (qs.map Value.num).mapM (scaleValue s o)
      = some (qs.map (fun q => Value.num (q / s - o))) := by
  induction qs with
  | nil => rfl
  | cons q rest ih =>
      rw [List.map_cons, List.mapM_cons, ih]
      simp [scaleValue, hs]

theorem parseAndScale_scaled (sf : ScaledField) (t : FitType) (data : Bytes)
    (count endian : Nat) (acc : AccFn) (qs : List ℚ)
    (hparse : t.parse data count endian = some (qs.map Value.num))
    (hsc : sf.isScaled = true) (hz : sf.scale ≠ 0) (ha : sf.isAccumulate = false) :
    parseAndScale sf t data count endian acc
      = .ok ([], [(sf.name,
          (some (qs.map (fun q => Value.num (q / sf.scale - sf.offset))), sf.units))]) := by
  unfold parseAndScale
  rw [hparse, hsc]
  simp only [if_true]
  rw [mapM_scaleValue_num _ _ hz]
  simp [ha]

theorem parseAndScale_unscaled (sf : ScaledField) (t : FitType) (data : Bytes)
    (count endian : Nat) (acc : AccFn) (vs : Values)
    (hparse : t.parse data count endian = some vs)
    (hsc : sf.isScaled = false) (ha : sf.isAccumulate = false) :
    parseAndScale sf t data count endian acc
      = .ok ([], [(sf.name, (some vs, sf.units))]) := by
  unfold parseAndScale
  rw [hparse, hsc]
  simp [ha]

theorem dynLoop_cons_some (recur : ParseFn) (sf : ScaledField) (t : FitType) (table : Table)
    (s : String) (rest : List (Option String)) (data : Bytes) (count endian : Nat)
    (references : Refs) (acc : AccFn) (msg : Message) :
    dynLoop recur sf t table (some s :: rest) data count endian references acc msg
      = match references.lookup s with
        | none => dynLoop recur sf t table rest data count endian references acc msg
        | some (vals, _) =>
            match vals with
            | none => .error "TypeError"
            | some [] => .error "IndexError"
            | some (v :: _) =>
                match tableGet table s v with
                | none => dynLoop recur sf t table rest data count endian references acc msg
                | some overrideName =>
                    match profileToField msg overrideName with
                    | none => .error "KeyError"
                    | some f => recur f data count endian references acc msg := rfl

theorem dynLoop_unresolved (recur : ParseFn) (sf : ScaledField) (t : FitType) (table : Table)
    (names : List (Option String)) (data : Bytes) (count endian : Nat) (references : Refs)
    (acc : AccFn) (msg : Message)
    (h : ∀ nm ∈ names, refUnresolved table references nm) :
    dynLoop recur sf t table names data count endian references acc msg
      = withWarn sf.name (parseAndScale sf t data count endian acc) := by
  induction names with
  | nil => rfl
  | cons nm rest ih =>
      have h1 := h nm (List.mem_cons_self _ _)
      have h2 : ∀ x ∈ rest, refUnresolved table references x :=
        fun x hx => h x (List.mem_cons_of_mem _ hx)
      cases nm with
      | none => simpa [dynLoop] using ih h2
      | some s =>
          simp only [refUnresolved] at h1
          rw [dynLoop_cons_some]
          cases hl : references.lookup s with
          | none => exact ih h2
          | some p =>
              obtain ⟨vals, u⟩ := p
              rw [hl] at h1
              cases vals with
              | none => exact h1.elim
              | some vs =>
                  cases vs with
                  | nil => exact h1.elim
                  | cons v rest2 =>
                      show (match tableGet table s v with
                            | none =>
                                dynLoop recur sf t table rest data count endian references acc msg
                            | some overrideName =>
                                match profileToField msg overrideName with
                                | none => (Except.error "KeyError" : Parsed)
                                | some f => recur f data count endian references acc msg)
                          = withWarn sf.name (parseAndScale sf t data count endian acc)
                      rw [h1]
                      exact ih h2

theorem perm_pair_eq {α : Type} {l : List α} {a b : α} (h : l.Perm [a, b]) :
    l = [a, b] ∨ l = [b, a] := by
  have hlen : l.length = 2 := by simpa using h.length_eq
  cases l with
  | nil => simp at hlen
  | cons x t =>
      cases t with
      | nil => simp at hlen
      | cons y t2 =>
          cases t2 with
          | cons z t3 => simp at hlen
          | nil =>
              have hx : x ∈ [a, b] := h.subset (List.mem_cons_self _ _)
              rcases List.mem_pair.mp hx with rfl | rfl
              · have h2 : [y].Perm [b] := h.cons_inv
                rw [List.perm_singleton.mp h2]
                exact Or.inl rfl
              · have h2 : ([x, y] : List α).Perm [x, a] := h.trans (List.Perm.swap x a [])
                have h3 : [y].Perm [a] := h2.cons_inv
                rw [List.perm_singleton.mp h3]
                exact Or.inr rfl

theorem fromBytesLE_zeros (L : Nat) : fromBytesLE (List.replicate L 0) = 0 := by
  induction L with
  | zero => rfl
  | succ k ih => simp [List.replicate, fromBytesLE, ih]

theorem toBytesLE_zero (n : Nat) : toBytesLE n 0 = List.replicate n 0 := by
  induction n with
  | zero => rfl
  | succ k ih => simp [toBytesLE, List.replicate, ih]

theorem compLoop_cons (recur : ParseFn) (nbits : Nat) (sf : ScaledField)
    (rest : List (Nat × ScaledField)) (bits : Nat) (big : Bool) (endian : Nat)
    (references : Refs) (acc : AccFn) (msg : Message) :
    compLoop recur ((nbits, sf) :: rest) bits big endian references acc msg
      = match delegateSize msg sf with
        | none => .error "AttributeError"
        | some sz =>
            match toBytes big (max ((nbits + 7) / 8) sz) (bits &&& (2 ^ bits - 1)) with
            | none => .error "OverflowError"
            | some data1 =>
                match recur (.delegate sf) data1 1 endian references acc msg with
                | .error e => .error e
                | .ok (log1, out1) =>
                    match compLoop recur rest (bits >>> nbits) big endian references acc msg with
                    | .error e => .error e
                    | .ok (log2, out2) => .ok (log1 ++ log2, out1 ++ out2) := rfl

theorem fieldParse_delegate_row_u8_zeros (ord : OrdFn) (n : Nat) (sf : ScaledField)
    (msg : Message) (references : Refs) (acc : AccFn) (nbytes : Nat)
    (h1 : 1 ≤ nbytes) (hs : sf.scale = 1) (ho : sf.offset = 0) (ha : sf.isAccumulate = false)
    (hres : ∃ sf' k, profileToField msg sf.name = some (Field.row sf' k u8Type)) :
    fieldParse ord (n + 1) (Field.delegate sf) (List.replicate nbytes 0) 1 0 references acc msg
      = .ok ([], [(sf.name, (some [Value.num 0], sf.units))]) := by
  obtain ⟨sf', k, hk⟩ := hres
  rw [fieldParse_delegate, hk]
  show parseAndScale sf u8Type (List.replicate nbytes 0) 1 0 acc = _
  unfold parseAndScale
  simp [u8Type, List.take_replicate, Nat.min_eq_left h1, isScaled_false_of sf hs ho, ha]

theorem compLoop_zeros (ord : OrdFn) (n : Nat) (comps : List (Nat × ScaledField))
    (references : Refs) (acc : AccFn) (msg : Message)
    (hc : ∀ p ∈ comps, (p.2 : ScaledField).scale = 1 ∧ (p.2).offset = 0 ∧
      (p.2).isAccumulate = false ∧
      ∃ sf' k, profileToField msg (p.2).name = some (Field.row sf' k u8Type)) :
    compLoop (fieldParse ord (n + 1)) comps 0 false 0 references acc msg
      = .ok ([], comps.map (fun p => ((p.2).name, (some [Value.num 0], (p.2).units)))) := by
  induction comps with
  | nil => rfl
  | cons p rest ih =>
      obtain ⟨nbits, sf⟩ := p
      obtain ⟨hs, ho, ha, hres⟩ := hc _ (List.mem_cons_self _ _)
      have hsz : delegateSize msg sf = some 1 := by
        obtain ⟨sf', k, hk⟩ := hres
        simp [delegateSize, hk, Field.typeOf, u8Type]
      have hto : toBytes false (max ((nbits + 7) / 8) 1) ((0 : Nat) &&& (2 ^ (0 : Nat) - 1))
          = some (List.replicate (max ((nbits + 7) / 8) 1) 0) := by
        simp [toBytes, toBytesLE_zero, Nat.pos_pow_of_pos]
      rw [compLoop_cons, hsz]
      dsimp only
      rw [hto]
      dsimp only
      rw [fieldParse_delegate_row_u8_zeros ord n sf msg references acc _
        (Nat.le_max_right _ _) hs ho ha hres]
      dsimp only
      rw [Nat.zero_shiftRight, ih (fun q hq => hc q (List.mem_cons_of_mem _ hq))]
      simp

theorem scanDyn_eq (rows : List (Option Row)) :
    scanDyn rows = (refsOfRows (rows.takeWhile overrideRow),
      tableOfRows (rows.takeWhile overrideRow)) := by
  induction rows with
  | nil => rfl
  | cons o rest ih =>
      cases o with
      | none => rfl
      | some r =>
          by_cases hc : (cellTruthy r.field_name && r.field_no.isNone) = true
          · simp [scanDyn, hc, overrideRow, List.takeWhile_cons, refsOfRows, tableOfRows, ih]
          · simp [scanDyn, hc, overrideRow, List.takeWhile_cons, refsOfRows, tableOfRows,
              Bool.not_eq_true _ ▸ hc]

/-! ## Claims -/

/-- C1: the spec says CompositeField.parse extracts exactly each
low-order bitWidth bits of each component, so for components a,b with bits 3,5
over the little-endian byte 0b00010101 it should yield a = 5 then b = 2.
The source instead masks with (1 << bits) - 1 where bits is the running
integer itself — a no-op — so the first component receives the whole
remaining integer: the code yields a = 21 then b = 2 on this input. -/
theorem C1_composite_mask_bug :
    fieldParse ordId 3 (Field.composite "r" none [(3, plainSF "a"), (5, plainSF "b")])
        [21] 1 0 [] accId msgAB
      = .ok ([], [("a", (some [Value.num 21], none)), ("b", (some [Value.num 2], none))]) ∧
    (Value.num 21 : Value) ≠ Value.num 5 := by
  exact ⟨by decide, by decide⟩

/-- C2 (counterexample): the spec says an undecodable buffer makes the
field emit nothing, but the yield in ScaledField._parse_and_scale sits
outside the None guard, so the field emits one entry whose values slot
is None. -/
theorem C2_cex :
    fieldParse ordId 1 (Field.row (mkScaledField "f" (some "u") none none false) none noneType)
        [0] 1 0 [] accId []
      = .ok ([], [("f", (none, some "u"))]) ∧
    (Except.ok (([], [("f", (none, some "u"))]) : List String × List Output) : Parsed)
      ≠ .ok ([], []) := by
  exact ⟨by decide, by decide⟩

/-- C2 (amended): when the type registry produces no values, the field
emits exactly one entry (name, (None, units)) — an absent-value marker,
not an empty sequence. -/
theorem C2_absent_values (sf : ScaledField) (num : Option Int) (t : FitType) (data : Bytes)
    (count endian : Nat) (references : Refs) (acc : AccFn) (msg : Message) (ord : OrdFn)
    (n : Nat) (h : t.parse data count endian = none) :
    fieldParse ord (n + 1) (Field.row sf num t) data count endian references acc msg
      = .ok ([], [(sf.name, (none, sf.units))]) := by
  rw [fieldParse_row]
  unfold parseAndScale
  rw [h]

/-- C2 (amended) witness at a concrete absent-decoding type. -/
theorem C2_absent_values_witness :
    noneType.parse [0] 1 0 = none ∧
    fieldParse ordId 1 (Field.row (mkScaledField "f" (some "u") none none false) none noneType)
        [0] 1 0 [] accId []
      = .ok ([], [("f", (none, some "u"))]) :=
  ⟨rfl, C2_absent_values (mkScaledField "f" (some "u") none none false) none noneType
    [0] 1 0 [] accId [] ordId 0 rfl⟩

/-- C4: scale defaults to 1 and offset to 0; the field is scaled iff
scale is not 1 or offset is not 0; a scaled field maps each numeric
value v to v / scale - offset; an unscaled field emits the registry
values unchanged.  Stated for non-accumulating fields, over any buffer
the registry decodes to numeric values. -/
theorem C4_scaling (name : String) (units : Option String) (scaleArg offsetArg : Option ℚ)
    (num : Option Int) (t : FitType) (data : Bytes) (count endian : Nat)
    (references : Refs) (acc : AccFn) (msg : Message) (ord : OrdFn) (n : Nat) (qs : List ℚ)
    (hparse : t.parse data count endian = some (qs.map Value.num)) :
    (mkScaledField name units scaleArg offsetArg false).scale = scaleArg.getD 1 ∧
    (mkScaledField name units scaleArg offsetArg false).offset = offsetArg.getD 0 ∧
    ((mkScaledField name units scaleArg offsetArg false).isScaled = true ↔
      (scaleArg.getD 1 ≠ 1 ∨ offsetArg.getD 0 ≠ 0)) ∧
    ((mkScaledField name units scaleArg offsetArg false).isScaled = true →
      scaleArg.getD 1 ≠ 0 →
      fieldParse ord (n + 1) (Field.row (mkScaledField name units scaleArg offsetArg false) num t)
          data count endian references acc msg
        = .ok ([], [(name,
            (some (qs.map (fun q => Value.num (q / scaleArg.getD 1 - offsetArg.getD 0))),
             units))])) ∧
    (scaleArg.getD 1 = 1 → offsetArg.getD 0 = 0 →
      fieldParse ord (n + 1) (Field.row (mkScaledField name units scaleArg offsetArg false) num t)
          data count endian references acc msg
        = .ok ([], [(name, (some (qs.map Value.num), units))])) := by
  refine ⟨rfl, rfl, ?_, ?_, ?_⟩
  · simp [ScaledField.isScaled, mkScaledField]
  · intro hsc hz
    rw [fieldParse_row, parseAndScale_scaled _ _ _ _ _ _ _ hparse hsc hz rfl]
    rfl
  · intro h1 h0
    rw [fieldParse_row,
      parseAndScale_unscaled _ _ _ _ _ _ _ hparse (isScaled_false_of _ h1 h0) rfl]
    rfl

/-- C4 witness: scale 2 halves the decoded byte 7; with no scale and no
offset the byte is emitted unchanged. -/
theorem C4_scaling_witness :
    fieldParse ordId 1 (Field.row (mkScaledField "f" none (some 2) none false) none u8Type)
        [7] 1 0 [] accId []
      = .ok ([], [("f", (some [Value.num (7 / 2)], none))]) ∧
    fieldParse ordId 1 (Field.row (mkScaledField "g" none none none false) none u8Type)
        [7] 1 0 [] accId []
      = .ok ([], [("g", (some [Value.num 7], none))]) := by
  constructor
  · have h := (C4_scaling "f" none (some 2) none none u8Type [7] 1 0 [] accId [] ordId 0 [7]
      (by decide)).2.2.2.1 (by decide) (by decide)
    rw [h]
    norm_num
  · have h := (C4_scaling "g" none none none none u8Type [7] 1 0 [] accId [] ordId 0 [7]
      (by decide)).2.2.2.2 (by decide) (by decide)
    rw [h]
    rfl

/-- C5: when no tracked reference name resolves (absent from the
references map, or its first decoded value has no table entry), a
DynamicField logs the resolution-failure warning and its output is
exactly that of the plain RowField built from the same row (same
ScaledField data and resolved type). -/
theorem C5_dynamic_fallback (sf : ScaledField) (num : Option Int) (t : FitType)
    (refs : List (Option String)) (table : Table) (data : Bytes) (count endian : Nat)
    (references : Refs) (acc : AccFn) (msg : Message) (ord : OrdFn) (n : Nat)
    (h : ∀ nm ∈ ord refs, refUnresolved table references nm) :
    fieldParse ord (n + 1) (Field.dynamic sf num t refs table) data count endian references acc msg
      = withWarn sf.name
          (fieldParse ord (n + 1) (Field.row sf num t) data count endian references acc msg) := by
  rw [fieldParse_dynamic, fieldParse_row]
  exact dynLoop_unresolved (fieldParse ord n) sf t table (ord refs) data count endian
    references acc msg h

/-- C5 witness: neither A nor B occurs in the references map, so the
dynamic field warns and decodes with its own type. -/
theorem C5_dynamic_fallback_witness :
    fieldParse ordId 2 dynXY [9] 1 0 [("C", (some [Value.str "1"], none))] accId msgXY
      = withWarn "f" (fieldParse ordId 2 (Field.row (plainSF "f") none u8Type)
          [9] 1 0 [("C", (some [Value.str "1"], none))] accId msgXY) := by
  exact C5_dynamic_fallback (plainSF "f") none u8Type [some "A", some "B"] tableXY
    [9] 1 0 [("C", (some [Value.str "1"], none))] accId msgXY ordId 1
    (by
      intro nm hnm
      have hcase : nm = some "A" ∨ nm = some "B" := by simpa [ordId] using hnm
      rcases hcase with rfl | rfl
      · exact trivial
      · exact trivial)

/-- C3 (counterexample): the tracked reference names live in a Python
set, whose iteration order is not the declaration order.  With both A
and B resolvable, the reversed iteration order — a permutation of the
set elements, hence an admissible run of the interpreter — selects Y
while the declaration order selects X, so decoding is not
first-match-wins in declaration order. -/
theorem C3_cex :
    (ordRev [some "A", some "B"]).Perm [some "A", some "B"] ∧
    fieldParse ordRev 3 dynXY [9] 1 0 refsAB accId msgXY
      = .ok ([], [("Y", (some [Value.num 200], none))]) ∧
    fieldParse ordId 3 dynXY [9] 1 0 refsAB accId msgXY
      = .ok ([], [("X", (some [Value.num 100], none))]) ∧
    (Except.ok (([], [("Y", (some [Value.num 200], none))]) : List String × List Output) : Parsed)
      ≠ .ok ([], [("X", (some [Value.num 100], none))]) := by
  exact ⟨by decide, by decide, by decide, by decide⟩

/-- C3 (amended): resolution is first-match-wins with respect to the
unspecified set-iteration order; in the cited example (references
contain only A, table maps (A,1) to X and (B,1) to Y) every admissible
iteration order selects X. -/
theorem C3_first_match (ord : OrdFn) (n : Nat)
    (hperm : (ord [some "A", some "B"]).Perm [some "A", some "B"]) :
    fieldParse ord (n + 2) dynXY [9] 1 0 refsOnlyA accId msgXY
      = .ok ([], [("X", (some [Value.num 100], none))]) := by
  have hcase := perm_pair_eq hperm
  rw [show dynXY
      = Field.dynamic (plainSF "f") none u8Type [some "A", some "B"] tableXY from rfl,
    fieldParse_dynamic]
  rcases hcase with h | h <;> rw [h]
  · show fieldParse ord (n + 1) (Field.row (plainSF "X") none (constType 100))
        [9] 1 0 refsOnlyA accId msgXY = _
    rw [fieldParse_row]
    rfl
  · show fieldParse ord (n + 1) (Field.row (plainSF "X") none (constType 100))
        [9] 1 0 refsOnlyA accId msgXY = _
    rw [fieldParse_row]
    rfl

/-- C3 (amended) witness at the identity iteration order. -/
theorem C3_first_match_witness :
    fieldParse ordId 2 dynXY [9] 1 0 refsOnlyA accId msgXY
      = .ok ([], [("X", (some [Value.num 100], none))]) :=
  C3_first_match ordId 0 (by decide)

/-- C6 (counterexample): DynamicField subclasses RowField, so
isinstance(delegate, RowField) holds for it.  A scaled DelegateField
whose name resolves to a DynamicField — not a plain RowField — does not
raise the configuration error the claim requires: it decodes through
the simple path with the static type of the dynamic field. -/
theorem C6_cex :
    profileToField msgDynD "d" = some dynD ∧
    dynD.isRow = false ∧
    dynD.isDynamic = true ∧
    sfDel2.isScaled = true ∧
    fieldParse ordId 2 (Field.delegate sfDel2) [7] 1 0 [] accId msgDynD
      = .ok ([], [("d", (some [Value.num (7 / 2)], none))]) := by
  refine ⟨rfl, rfl, rfl, by decide, ?_⟩
  show parseAndScale sfDel2 u8Type [7] 1 0 accId = _
  rw [parseAndScale_scaled _ _ _ _ _ _ [7] (by decide) (by decide) (by decide) rfl]
  norm_num [sfDel2, mkScaledField]

/-- C6 (amended): a field exposes a resolved type exactly when it is a
RowField instance (RowField or its subclass DynamicField).  When the
resolved delegate has a type, decoding uses that type with the scale and
offset of this delegating field; when it has none and this field is scaled, the
configuration error is raised; when it has none and this field is not
scaled, the call is forwarded verbatim. -/
theorem C6_delegate (sf : ScaledField) (d : Field) (data : Bytes) (count endian : Nat)
    (references : Refs) (acc : AccFn) (msg : Message) (ord : OrdFn) (n : Nat)
    (hd : profileToField msg sf.name = some d) :
    (d.typeOf.isSome = (d.isRow || d.isDynamic)) ∧
    (∀ t, d.typeOf = some t →
      fieldParse ord (n + 1) (Field.delegate sf) data count endian references acc msg
        = parseAndScale sf t data count endian acc) ∧
    (d.typeOf = none → sf.isScaled = true →
      fieldParse ord (n + 1) (Field.delegate sf) data count endian references acc msg
        = .error "Scaled component is not a simple field") ∧
    (d.typeOf = none → sf.isScaled = false →
      fieldParse ord (n + 1) (Field.delegate sf) data count endian references acc msg
        = fieldParse ord n d data count endian references acc msg) := by
  refine ⟨?_, ?_, ?_, ?_⟩
  · cases d <;> rfl
  · intro t ht
    rw [fieldParse_delegate, hd]
    dsimp only
    rw [ht]
  · intro ht hsc
    rw [fieldParse_delegate, hd]
    dsimp only
    rw [ht]
    dsimp only
    rw [hsc]
    rfl
  · intro ht hsc
    rw [fieldParse_delegate, hd]
    dsimp only
    rw [ht]
    dsimp only
    rw [hsc]
    rfl

/-- C6 (amended) witness: a delegate resolving to a plain RowField
decodes with the type of that field. -/
theorem C6_delegate_witness :
    fieldParse ordId 1 (Field.delegate (plainSF "x")) [3] 1 0 [] accId msgRowX
      = parseAndScale (plainSF "x") u8Type [3] 1 0 accId :=
  (C6_delegate (plainSF "x") (Field.row (plainSF "x") none u8Type) [3] 1 0 [] accId
    msgRowX ordId 0 rfl).2.1 u8Type rfl

/-- C7 (counterexample): declared bit widths 3 + 9 = 12 exceed the 8
bits of the one-byte buffer, yet decode succeeds — no error is raised;
the out-of-range bits are read as zero. -/
theorem C7_cex :
    8 * ([(0 : Nat)] : Bytes).length
        < (([(3, plainSF "a"), (9, plainSF "b")].map (fun p => p.1)).sum) ∧
    fieldParse ordId 3 (Field.composite "c" none [(3, plainSF "a"), (9, plainSF "b")])
        [0] 1 0 [] accId msgAB
      = .ok ([], [("a", (some [Value.num 0], none)), ("b", (some [Value.num 0], none))]) := by
  exact ⟨by decide, by decide⟩

/-- C7 (amended): CompositeField.parse performs no bit-width validation:
when the declared widths exceed the capacity of an all-zero buffer and
the unscaled components resolve to one-byte row fields, decode succeeds
and emits a zero value for every component, deriving the missing bits
as zero instead of raising. -/
theorem C7_no_overflow_check (nm : String) (numb : Option Int)
    (comps : List (Nat × ScaledField)) (L count : Nat) (references : Refs) (acc : AccFn)
    (msg : Message) (ord : OrdFn) (n : Nat)
    (_hover : 8 * L < ((comps.map (fun p => p.1)).sum))
    (hc : ∀ p ∈ comps, (p.2 : ScaledField).scale = 1 ∧ (p.2).offset = 0 ∧
      (p.2).isAccumulate = false ∧
      ∃ sf' k, profileToField msg (p.2).name = some (Field.row sf' k u8Type)) :
    fieldParse ord (n + 2) (Field.composite nm numb comps) (List.replicate L 0) count 0
        references acc msg
      = .ok ([], comps.map (fun p => ((p.2).name, (some [Value.num 0], (p.2).units)))) := by
  show compLoop (fieldParse ord (n + 1)) comps (fromBytes false (List.replicate L 0)) false 0
      references acc msg = _
  rw [show fromBytes false (List.replicate L 0) = 0 from by
    simp [fromBytes, fromBytesLE_zeros]]
  exact compLoop_zeros ord n comps references acc msg hc

/-- C7 (amended) witness at the counterexample input. -/
theorem C7_no_overflow_check_witness :
    fieldParse ordId 2 (Field.composite "c" none [(3, plainSF "a"), (9, plainSF "b")])
        (List.replicate 1 0) 1 0 [] accId msgAB
      = .ok ([], [("a", (some [Value.num 0], none)), ("b", (some [Value.num 0], none))]) := by
  have h := C7_no_overflow_check "c" none [(3, plainSF "a"), (9, plainSF "b")] 1 1 [] accId
    msgAB ordId 0 (by decide)
    (by
      intro p hp
      have hcase : p = (3, plainSF "a") ∨ p = (9, plainSF "b") := by simpa using hp
      rcases hcase with rfl | rfl
      · exact ⟨rfl, rfl, rfl, plainSF "a", none, rfl⟩
      · exact ⟨rfl, rfl, rfl, plainSF "b", none, rfl⟩)
  rw [h]
  rfl

/-- C8: the factory builds a CompositeField exactly when the components
cell of the row is truthy; otherwise a DynamicField exactly when the
peeked next row has a field name and no field number, in which case the
resolution table and reference set come from exactly the contiguous
prefix of override rows (field name present, field number absent, row
non-blank); otherwise a plain RowField. -/
theorem C8_factory (row : Row) (rows : List (Option Row)) (types : Types) :
    (cellTruthy row.components = true →
      ∀ f, MessageField row rows types = some f → f.isComposite = true) ∧
    (cellTruthy row.components = false → overrideRow (peekRows rows) = true →
      ∀ f, MessageField row rows types = some f →
        f.isDynamic = true ∧
        f.dynTable = tableOfRows (rows.takeWhile overrideRow) ∧
        f.dynRefs = (refsOfRows (rows.takeWhile overrideRow)).dedup) ∧
    (cellTruthy row.components = false → overrideRow (peekRows rows) = false →
      ∀ f, MessageField row rows types = some f → f.isRow = true) := by
  refine ⟨?_, ?_, ?_⟩
  · intro hcomp f hf
    unfold MessageField at hf
    rw [hcomp] at hf
    simp only [if_true] at hf
    unfold compositeOfRow at hf
    rw [Option.map_eq_some'] at hf
    obtain ⟨comps, _, hr⟩ := hf
    rw [← hr]
    rfl
  · intro hcomp hpeek f hf
    unfold MessageField at hf
    rw [hcomp] at hf
    simp only [Bool.false_eq_true, if_false] at hf
    cases hpr : peekRows rows with
    | none => rw [hpr] at hpeek; exact absurd hpeek (by simp [overrideRow])
    | some r =>
        rw [hpr] at hf hpeek
        simp only [overrideRow] at hpeek
        dsimp only at hf
        rw [if_pos hpeek] at hf
        unfold dynamicOfRow at hf
        rw [Option.map_eq_some'] at hf
        obtain ⟨t, _, hr⟩ := hf
        rw [← hr]
        refine ⟨rfl, ?_, ?_⟩
        · show (scanDyn rows).2 = _
          rw [scanDyn_eq]
        · show (scanDyn rows).1.dedup = _
          rw [scanDyn_eq]
  · intro hcomp hpeek f hf
    unfold MessageField at hf
    rw [hcomp] at hf
    simp only [Bool.false_eq_true, if_false] at hf
    have hrow : rowFieldOfRow row types = some f → f.isRow = true := by
      intro hg
      unfold rowFieldOfRow at hg
      rw [Option.map_eq_some'] at hg
      obtain ⟨t, _, hr⟩ := hg
      rw [← hr]
      rfl
    cases hpr : peekRows rows with
    | none => rw [hpr] at hf; exact hrow hf
    | some r =>
        rw [hpr] at hf hpeek
        simp only [overrideRow] at hpeek
        dsimp only at hf
        rw [if_neg (by simp [hpeek])] at hf
        exact hrow hf

/-- C8 witness: a dynamic construction over two override rows and a
terminating numbered row. -/
theorem C8_factory_witness :
    (MessageField rowC8 rowsC8 typesU8).map Field.isDynamic = some true ∧
    (MessageField rowC8 rowsC8 typesU8).map Field.dynTable
      = some (tableOfRows (rowsC8.takeWhile overrideRow)) ∧
    (MessageField rowC8 rowsC8 typesU8).map Field.dynRefs
      = some ((refsOfRows (rowsC8.takeWhile overrideRow)).dedup) := by
  obtain ⟨f, hf⟩ : ∃ f, MessageField rowC8 rowsC8 typesU8 = some f := ⟨_, rfl⟩
  obtain ⟨h1, h2, h3⟩ := (C8_factory rowC8 rowsC8 typesU8).2.1 (by decide) (by decide) f hf
  rw [hf]
  simp [h1, h2, h3]

/-- C9 (counterexample): only the lists from the third position on are
padded; the second list is mandatory too, and the zip truncates to the
shorter of the first two lists.  With components a,b but a single bit
width, the tuple for b is dropped, contradicting one-tuple-per-entry of
the first list. -/
theorem C9_cex :
    zipFields [some "a,b", some "3", some "u"] = [[some "a", some "3", some "u"]] ∧
    (pySplit (some "a,b")).length = 2 := by
  exact ⟨by decide, by decide⟩

/-- C9 (amended): the zip yields one tuple per index below the minimum
of the first two list lengths (both mandatory, never padded), and at
each such index every cell list is read with a None default, so lists
from the third position on are effectively padded with None. -/
theorem C9_zip (f0 f1 : Option String) (rest : List (Option String)) :
    (zipFields (f0 :: f1 :: rest)).length = min (pySplit f0).length (pySplit f1).length ∧
    ∀ i, i < min (pySplit f0).length (pySplit f1).length →
      (zipFields (f0 :: f1 :: rest)).getD i []
        = (f0 :: f1 :: rest).map (fun f => (pySplit f).getD i none) := by
  constructor
  · simp [zipFields]
  · intro i hi
    simp [zipFields, List.getD_eq_getElem?_getD, List.getElem?_map, List.getElem?_range, hi]

/-- C9 (amended) witness: equal-length mandatory lists, padded optional
list. -/
theorem C9_zip_witness :
    (zipFields [some "a,b", some "3,4", some "u"]).length = 2 ∧
    (zipFields [some "a,b", some "3,4", some "u"]).getD 1 [] = [some "b", some "4", none] := by
  constructor
  · have h := (C9_zip (some "a,b") (some "3,4") [some "u"]).1
    rw [h]
    decide
  · have h := (C9_zip (some "a,b") (some "3,4") [some "u"]).2 1 (by decide)
    rw [h]
    decide

/-- C10: Row.single_int is total: None maps to None, a parseable value
to its integer, a failed conversion to None with a logged warning; and
a RowField is still constructed from a row whose numeric cells are all
absent or malformed, with scale, offset, number and accumulate degraded
to their defaults. -/
theorem C10_single_int :
    single_int none = none ∧
    (∀ s n, pyInt? s = some n → single_int (some s) = some n) ∧
    (∀ s, pyInt? s = none →
      single_intLog (some s) = (none, ["Cannot parse " ++ s ++ " as a single integer"])) ∧
    (∀ (row : Row) (types : Types) (t : FitType),
      types.profile_to_type row.field_type = some t →
      single_int row.scale = none → single_int row.offset = none →
      single_int row.field_no = none → single_int row.accumulate = none →
      rowFieldOfRow row types
        = some (Field.row (mkScaledField (row.field_name.getD "") row.units none none false)
            none t)) := by
  refine ⟨rfl, ?_, ?_, ?_⟩
  · intro s n h
    simp [single_int, single_intLog, h]
  · intro s h
    simp [single_intLog, h]
  · intro row types t ht hsc hof hno hac
    simp [rowFieldOfRow, ht, hsc, hof, hno, hac, truthyInt]

/-- C10 witness: whitespace integers parse, malformed cells degrade. -/
theorem C10_single_int_witness :
    single_int none = none ∧
    single_int (some " 12 ") = some 12 ∧
    single_intLog (some "4x") = (none, ["Cannot parse 4x as a single integer"]) ∧
    rowFieldOfRow rowBad typesU8
      = some (Field.row (mkScaledField "speed" none none none false) none u8Type) := by
  refine ⟨C10_single_int.1, ?_, ?_, ?_⟩
  · exact C10_single_int.2.1 " 12 " 12 (by decide)
  · have h := C10_single_int.2.2.1 "4x" (by decide)
    rw [h]
    decide
  · exact C10_single_int.2.2.2 rowBad typesU8 u8Type rfl (by decide) (by decide) (by decide)
      (by decide)

end ChooChoo
